import Mathlib

/-!
Verification of the real-time call-session coordinator (backend of
pedronauck/rocketapp): shallow embedding of the message queue, stream
coordinator, batched persistence writer, caller lookup, name extraction and
the per-call protocol handler, together with proofs of the documented
behavioural properties.

Conventions of the embedding:
* JavaScript timestamps (`Date.now()`) are modelled as `Int`.
* Mutable per-call containers (`Map<string, ...>`) are modelled per call:
  each definition takes and returns the state that belongs to one call id.
* Asynchronous suspension points are made explicit where a claim depends on
  them (see the `Relay` operational model at the end of the definitions).
-/

namespace RocketApp

/-! ## Inbound message queue (src/backend/src/services/message-queue.ts) -/

/-- Message kinds of `QueuedMessage.type`. -/
inductive MsgType
  | prompt
  | interrupt
  | context
deriving DecidableEq

/-- One entry of a per-call queue (`QueuedMessage`); the random `nanoid`
identifier is omitted because no queue decision depends on it. -/
structure QueuedMessage where
  mtype : MsgType
  content : String
  timestamp : Int
  processed : Bool
deriving DecidableEq

/-- The caller-supplied part of a message
(the `Omit` of the id, timestamp and processed fields). -/
structure MsgIn where
  mtype : MsgType
  content : String
deriving DecidableEq

/-- Constant `maxQueueSize` in `MessageQueue`. -/
def maxQueueSize : Nat := 10

/-- Constant `deduplicationWindow` in `MessageQueue` (milliseconds). -/
def deduplicationWindow : Int := 500

/-- The duplicate test of `MessageQueue.enqueue` (`queue.some(...)`). -/
def isDuplicate (queue : List QueuedMessage) (now : Int) (m : MsgIn) : Bool :=
  queue.any fun msg =>
    decide (msg.content = m.content) && decide (msg.mtype = m.mtype) &&
      decide (now - msg.timestamp < deduplicationWindow) && !msg.processed

/-- The entry built at the end of `MessageQueue.enqueue`. -/
def toEntry (now : Int) (m : MsgIn) : QueuedMessage :=
  { mtype := m.mtype, content := m.content, timestamp := now, processed := false }

/-- Method `MessageQueue.enqueue` on the queue of one call: the capacity check and
`queue.shift()` run first, then the duplicate filter, then the append.
Returns the boolean result together with the new queue. -/
def enqueue (queue : List QueuedMessage) (now : Int) (m : MsgIn) :
    Bool × List QueuedMessage :=
  let queue := if maxQueueSize ≤ queue.length then queue.drop 1 else queue
  if isDuplicate queue now m then (false, queue)
  else (true, queue ++ [toEntry now m])

/-- Repeated `enqueue` of a list of timestamped messages. -/
def enqueueAll (queue : List QueuedMessage) (inputs : List (Int × MsgIn)) :
    List QueuedMessage :=
  inputs.foldl (fun q p => (enqueue q p.1 p.2).2) queue

/-- A demonstration input list of 11 pairwise-distinct messages. -/
def c2DemoInputs : List (Int × MsgIn) :=
  [(0, ⟨MsgType.prompt, "a"⟩), (1, ⟨MsgType.prompt, "b"⟩),
   (2, ⟨MsgType.prompt, "c"⟩), (3, ⟨MsgType.prompt, "d"⟩),
   (4, ⟨MsgType.prompt, "e"⟩), (5, ⟨MsgType.prompt, "f"⟩),
   (6, ⟨MsgType.prompt, "g"⟩), (7, ⟨MsgType.prompt, "h"⟩),
   (8, ⟨MsgType.prompt, "i"⟩), (9, ⟨MsgType.prompt, "j"⟩),
   (10, ⟨MsgType.prompt, "k"⟩)]

/-! ## Stream coordinator (src/backend/src/services/stream-coordinator.ts)

The coordinator keeps a `Map<callSid, StreamState>`; the definitions below
act on the entry of one call (`Option StreamState`, `none` when the map has
no entry for the call). -/

/-- Per-call `StreamState` (the redundant `callSid` field is the map key). -/
structure StreamState where
  isActive : Bool
  startedAt : Int
  lastActivity : Int
deriving DecidableEq

/-- Constant `streamTimeout` in `StreamCoordinator` (30 seconds, in milliseconds). -/
def streamTimeout : Int := 30000

/-- Method `StreamCoordinator.isStreamActive`: reports whether a stream is active,
first marking it inactive when the time since its last activity exceeds
`streamTimeout` (the stale-stream safety mechanism). Returns the reported
flag together with the updated entry. -/
def isStreamActive : Option StreamState → Int → Bool × Option StreamState
  | none, _ => (false, none)
  | some st, now =>
    if st.isActive && decide (streamTimeout < now - st.lastActivity) then
      (false, some { st with isActive := false })
    else (st.isActive, some st)

/-- Method `StreamCoordinator.registerStreamStart`: refuses (returning `false`)
when `isStreamActive` reports an active stream, otherwise installs a fresh
active entry. -/
def registerStreamStart (s : Option StreamState) (now : Int) :
    Bool × Option StreamState :=
  let p := isStreamActive s now
  if p.1 then (false, p.2)
  else (true, some { isActive := true, startedAt := now, lastActivity := now })

/-- Method `StreamCoordinator.registerStreamEnd`: marks the entry inactive
(no-op when the call has no entry). -/
def registerStreamEnd : Option StreamState → Option StreamState
  | none => none
  | some st => some { st with isActive := false }

/-- Method `StreamCoordinator.updateActivity`: the heartbeat, refreshing
`lastActivity` of an active entry. -/
def updateActivity : Option StreamState → Int → Option StreamState
  | none, _ => none
  | some st, now =>
    if st.isActive then some { st with lastActivity := now } else some st

/-! ## Name extraction (src/backend/src/routes/twilio.ts, `extractNameFromResponse`)

The source matches a list of case-insensitive regular expressions, each a
literal followed by a single `(\w+)` capture, plus the anchored `/^(\w+)$/i`.
They are embedded as an explicit leftmost search over the character list. -/

/-- The apostrophe character (appears inside two of the regex literals). -/
def apos : Char := Char.ofNat 39

/-- JavaScript `\w`: ASCII letters, digits and underscore. -/
def isWordChar (c : Char) : Bool := c.isAlphanum || (c == '_')

/-- JavaScript `String.prototype.trim`: strip whitespace at both ends. -/
def trimChars (l : List Char) : List Char :=
  ((l.dropWhile Char.isWhitespace).reverse.dropWhile Char.isWhitespace).reverse

/-- Match a literal pattern case-insensitively at the head of the input,
returning the remaining input on success. -/
def matchLitAt : List Char → List Char → Option (List Char)
  | [], rest => some rest
  | _ :: _, [] => none
  | p :: ps, c :: cs =>
    if p.toLower = c.toLower then matchLitAt ps cs else none

/-- Leftmost match of `literal(\w+)` over the input: at each position, the
literal must match case-insensitively and be followed by at least one word
character; the capture is the maximal word-character run (the greedy
`(\w+)`). -/
def searchCapture (pat : List Char) : List Char → Option (List Char)
  | [] =>
    match matchLitAt pat [] with
    | some rest =>
      let w := rest.takeWhile isWordChar
      if w.isEmpty then none else some w
    | none => none
  | c :: cs =>
    match matchLitAt pat (c :: cs) with
    | some rest =>
      let w := rest.takeWhile isWordChar
      if w.isEmpty then searchCapture pat cs else some w
    | none => searchCapture pat cs

/-- The anchored pattern (caret, word capture, dollar): the whole (trimmed) input is one nonempty word. -/
def anchoredWordCapture (t : List Char) : Option (List Char) :=
  if !t.isEmpty && t.all isWordChar then some t else none

/-- Capitalization: `name.charAt(0).toUpperCase() + name.slice(1).toLowerCase()`. -/
def capitalizeWord : List Char → List Char
  | [] => []
  | c :: cs => c.toUpper :: cs.map Char.toLower

/-- The validation in the source: length between 2 and 20 and only ASCII
letters (`/^[A-Za-z]+$/`). -/
def validName (w : List Char) : Bool :=
  decide (2 ≤ w.length) && decide (w.length ≤ 20) && w.all Char.isAlpha

/-- The literals of the six unanchored patterns, in source order:
my name is, i-apostrophe-m, i am, this is, call me, i-t-apostrophe-s,
each with a trailing space. -/
def namePatternLits : List (List Char) :=
  ["my name is ".data,
   ['i', apos, 'm', ' '],
   "i am ".data,
   "this is ".data,
   "call me ".data,
   ['i', 't', apos, 's', ' ']]

/-- Function `extractNameFromResponse`: try each pattern in order on the trimmed
text; the first capture that passes validation is returned capitalized;
a match whose capture fails validation falls through to the next pattern. -/
def extractNameFromResponse (text : String) : Option String :=
  let t := trimChars text.data
  let caps :=
    (namePatternLits.map fun pat => searchCapture pat t) ++
      [anchoredWordCapture t]
  (caps.filterMap fun c =>
    match c with
    | some w =>
      let name := capitalizeWord w
      if validName name then some (String.mk name) else none
    | none => none).head?

/-! ## Outbound envelopes, stop commands and `sendStream`
(src/backend/src/routes/twilio.ts) -/

/-- Outbound relay envelopes. -/
inductive Envelope
  | text (token : String) (last : Bool)
  | stop
  | pong
deriving DecidableEq

/-- Roles of a transcript turn (`SimpleMessage.role`). -/
inductive Role
  | system
  | user
  | assistant
deriving DecidableEq

/-- One transcript turn (`SimpleMessage` in src/backend/src/services/ai.ts). -/
structure SimpleMessage where
  role : Role
  content : String
deriving DecidableEq

/-- The stop-command test in `handlePrompt`:
the lowercased trimmed text equals "stop", or the lowercased text contains
"stop talking" or "stop speaking". -/
def isStopCommand (text : String) : Bool :=
  let lower := text.data.map Char.toLower
  decide (trimChars lower = "stop".data) ||
    decide ("stop talking".data <:+: lower) ||
    decide ("stop speaking".data <:+: lower)

/-- The connection-local flags of `RelayState` that `handlePrompt` reads and
writes. -/
structure RelayFlags where
  pendingInterrupt : Bool
  ttsStoppedByUser : Bool
deriving DecidableEq

/-- What one `handlePrompt` invocation does before its first suspension
point: envelopes sent, resulting queue, resulting flags, whether it falls
through into `processPrompt`, and whether it aborts the in-flight
generation (it never does). -/
structure PromptStepResult where
  sent : List Envelope
  queue : List QueuedMessage
  flags : RelayFlags
  startsProcessing : Bool
  abortsGeneration : Bool
deriving DecidableEq

/-- Function `handlePrompt`, given the activity answer of the coordinator: empty text
returns; with a call id and an active stream, a stop command emits one
`{type:"stop"}` envelope and sets `ttsStoppedByUser` (no abort, no enqueue,
no processing), any other text is enqueued; otherwise the handler proceeds
into `processPrompt`. -/
def handlePrompt (text : String) (callSid : Option String) (active : Bool)
    (q : List QueuedMessage) (now : Int) (fl : RelayFlags) : PromptStepResult :=
  if text = "" then ⟨[], q, fl, false, false⟩
  else if callSid.isSome && active then
    if isStopCommand text then
      ⟨[Envelope.stop], q, ⟨false, true⟩, false, false⟩
    else
      ⟨[], (enqueue q now ⟨MsgType.prompt, text⟩).2,
        ⟨false, fl.ttsStoppedByUser⟩, false, false⟩
  else
    ⟨[], q, ⟨false, fl.ttsStoppedByUser⟩, true, false⟩

/-- The `for await` loop of `sendStream`. Each chunk is paired with the
value the mutable `state.ttsStoppedByUser` cell holds when that iteration
reads it (the cell is set by a concurrently handled stop command): the chunk
is always accumulated into `fullResponse`, and is sent as a non-final text
envelope only when the flag is false. -/
def sendStreamLoop : List (String × Bool) → List Envelope × String
  | [] => ([], "")
  | (chunk, stopped) :: rest =>
    let p := sendStreamLoop rest
    (if stopped then p.1 else Envelope.text chunk false :: p.1, chunk ++ p.2)

/-- Function `sendStream`: the loop above followed by the terminal
`{type:"text", token:"", last:true}` envelope, which is sent only when
`ttsStoppedByUser` is false at the post-loop check (`finalStopped`).
Returns the envelopes sent and the accumulated `fullResponse`. -/
def sendStream (chunks : List (String × Bool)) (finalStopped : Bool) :
    List Envelope × String :=
  let p := sendStreamLoop chunks
  (p.1 ++ if finalStopped then [] else [Envelope.text "" true], p.2)

/-- Concatenation of a list of strings in order (the value `fullResponse`
accumulates over the loop). -/
def concatStrings : List String → String
  | [] => ""
  | s :: rest => s ++ concatStrings rest

/-- The terminal-envelope test: a text envelope with `last = true`. -/
def isTerminalEnvelope : Envelope → Bool
  | Envelope.text _ true => true
  | _ => false

/-- After `sendStream`, `processPrompt` appends the completed response to
the session transcript when it is nonempty
(`if (callSid && fullResponse) ... [...history, assistant turn]`). -/
def appendAssistantTurn (history : List SimpleMessage) (fullResponse : String) :
    List SimpleMessage :=
  if fullResponse = "" then history
  else history ++ [⟨Role.assistant, fullResponse⟩]

/-! ## Batched persistence writer (`BatchWriter`)

The pending `Map<callSid, BatchItem>` is modelled as an association list in
JavaScript `Map` insertion order (updating an existing key keeps its
position); `writes` records the `db.updateConversationMessages` calls issued
by flushes, in order. The flush body runs in a `setImmediate` callback; the
pending map is cleared synchronously, so at this granularity a forced flush
empties the map and issues the writes in one step. -/

/-- One pending entry (`BatchItem`). -/
structure BatchItem where
  callSid : String
  messages : List SimpleMessage
  ended : Bool
  timestamp : Int
deriving DecidableEq

/-- The state of the writer: pending map, timer flag, and the log of store
writes issued so far. -/
structure BatchWriterState where
  queue : List BatchItem
  timerRunning : Bool
  writes : List BatchItem
deriving DecidableEq

/-- Constant `maxBatchSize` in `BatchWriter`. -/
def maxBatchSize : Nat := 10

/-- Constant `batchInterval` in `BatchWriter` (milliseconds). -/
def batchInterval : Int := 2000

/-- JavaScript `Map.set` keyed by `callSid`: replace in place when the key
exists, append otherwise. -/
def mapSet (q : List BatchItem) (item : BatchItem) : List BatchItem :=
  if q.any fun x => x.callSid == item.callSid then
    q.map fun x => if x.callSid == item.callSid then item else x
  else q ++ [item]

/-- Method `BatchWriter.flush`: clear the timer; if anything is pending, write the
whole pending map to the store and clear it. -/
def flush (s : BatchWriterState) : BatchWriterState :=
  if s.queue.isEmpty then { s with timerRunning := false }
  else { queue := [], timerRunning := false, writes := s.writes ++ s.queue }

/-- Method `BatchWriter.enqueue`: coalesce into the pending map (last write wins
per call id), make sure the timer is running, and flush immediately when
the pending map has reached `maxBatchSize` entries or the update carries
`ended = true`. -/
def bwEnqueue (s : BatchWriterState) (callSid : String)
    (messages : List SimpleMessage) (ended : Bool) (now : Int) :
    BatchWriterState :=
  let q := mapSet s.queue ⟨callSid, messages, ended, now⟩
  let s1 : BatchWriterState := { queue := q, timerRunning := true, writes := s.writes }
  if maxBatchSize ≤ q.length || ended then flush s1 else s1

/-- The expiry of the 2-second batch timer, which flushes the pending map. -/
def timerFire (s : BatchWriterState) : BatchWriterState :=
  if s.timerRunning then flush s else s

/-- A sequence of non-ended updates for one call, oldest first. -/
def bwEnqueueAll (s : BatchWriterState) (c : String)
    (updates : List (Int × List SimpleMessage)) : BatchWriterState :=
  updates.foldl (fun st p => bwEnqueue st c p.2 false p.1) s

/-- A demonstration pending map of 9 entries with distinct call ids. -/
def c3DemoQueue : List BatchItem :=
  [⟨"c1", [], false, 0⟩, ⟨"c2", [], false, 0⟩, ⟨"c3", [], false, 0⟩,
   ⟨"c4", [], false, 0⟩, ⟨"c5", [], false, 0⟩, ⟨"c6", [], false, 0⟩,
   ⟨"c7", [], false, 0⟩, ⟨"c8", [], false, 0⟩, ⟨"c9", [], false, 0⟩]

/-! ## Caller lookup with deadline and setup seeding
(src/backend/src/db/database.ts `getCallerQuickly`,
src/backend/src/routes/twilio.ts `handleSetup`)

`getCallerQuickly` races `getCallerByPhone` against a timer resolving
`null` after `timeoutMs`. The race is modelled with a resolution-time
oracle: `lookupDelay` is the time at which the underlying lookup would
resolve with `lookupResult`. The race returns the value of the lookup only when
it resolves strictly before the timer; otherwise it returns `none` at the
deadline — the pending lookup is neither awaited nor cancelled, which shows
up as the result being independent of `lookupResult`. -/

/-- A caller row (`Caller` in database.ts); `name` is nullable. -/
structure Caller where
  phoneNumber : String
  name : Option String
deriving DecidableEq

/-- Method `CallDatabase.getCallerQuickly`, as the outcome of the
`Promise.race`. -/
def getCallerQuickly (lookupDelay : Int) (lookupResult : Option Caller)
    (timeoutMs : Int) : Option Caller :=
  if lookupDelay < timeoutMs then lookupResult else none

/-- A string used inside the prompt templates (apostrophes spliced in). -/
def aposS : String := String.mk [apos]

/-- Substring containment (`String.prototype.includes`). -/
def strContains (s pat : String) : Bool := decide (pat.data <:+: s.data)

/-- The system prompt for a first-time caller (the `else` branch of
the caller check of `handleSetup`, also chosen when the lookup timed out). -/
def newCallerSystemPrompt : String :=
  "You are a helpful Pokédex assistant. This is a first-time caller. Start by welcoming them to the Pokédex Call Center and politely ask for their name before helping with Pokémon questions. Once they provide their name, acknowledge it warmly and then help with their Pokémon questions."

/-- The special pronunciation rewrite in `handleSetup`. -/
def displayNameFor (name : String) : String :=
  if name = "bdougie" then "bee dug ee" else name

/-- The five casual system prompts offered for a recognized returning
caller. -/
def returningCallerPrompts (callerName displayName contextInfo : String) :
    List String :=
  ["You are a friendly Pokédex assistant. The caller is " ++ callerName ++
     " (pronounced \"" ++ displayName ++ "\")." ++ contextInfo ++
     " They just heard a greeting, so jump right in with a casual \"So what Pokémon are you curious about?\" or similar. Keep it brief and conversational.",
   "You are a helpful Pokédex assistant. " ++ callerName ++
     " (pronounced \"" ++ displayName ++ "\") is calling back." ++ contextInfo ++
     " Since they were already greeted, just ask casually what Pokémon they want to know about. Be friendly but brief.",
   "You" ++ aposS ++ "re the Pokédex assistant. " ++ callerName ++
     " (pronounced \"" ++ displayName ++ "\") just called and was greeted." ++
     contextInfo ++
     " Follow up naturally with something like \"Which Pokémon should we look up?\" Keep it casual and short.",
   "You are a knowledgeable Pokédex assistant. The caller " ++ callerName ++
     " (pronounced \"" ++ displayName ++ "\") was just welcomed." ++ contextInfo ++
     " Simply ask what Pokémon info they need today. Stay casual and concise.",
   "You" ++ aposS ++ "re helping " ++ callerName ++ " (pronounced \"" ++
     displayName ++ "\") with Pokémon information." ++ contextInfo ++
     " They just heard a greeting, so get right to it - ask what Pokémon they" ++
     aposS ++ "re interested in. Keep it friendly and brief."]

/-- The two extra context-aware prompts appended when the context string
mentions recent topics. -/
def contextAwarePrompts (callerName contextInfo : String) : List String :=
  ["You are a friendly Pokédex assistant. " ++ callerName ++ " is back!" ++
     contextInfo ++
     " They were just greeted. You can reference their previous interests if relevant, or help with something new. Keep it natural and brief.",
   "You" ++ aposS ++ "re the Pokédex assistant helping " ++ callerName ++
     "." ++ contextInfo ++
     " After the greeting, see if they want to continue exploring those topics or learn about something new. Stay conversational."]

/-- The system-prompt choice of `handleSetup`: a caller with a known name
gets one of the casual returning-caller prompts (`pick` models the random
index); an unknown caller — including a timed-out lookup — gets the
first-time-caller prompt. -/
def setupSystemPrompt (caller : Option Caller) (contextInfo : String)
    (pick : Nat) : String :=
  match caller with
  | some c =>
    match c.name with
    | some n =>
      let d := displayNameFor n
      let prompts := returningCallerPrompts n d contextInfo ++
        (if strContains contextInfo "Recently" then
          contextAwarePrompts n contextInfo
        else [])
      prompts.getD (pick % prompts.length) newCallerSystemPrompt
    | none => newCallerSystemPrompt
  | none => newCallerSystemPrompt

/-- Seeding: `sessions.getOrInit` with a single system turn, for a fresh
call. -/
def seedSessionTurns (prompt : String) : List SimpleMessage :=
  [⟨Role.system, prompt⟩]

/-! ## Operational model of the per-call session handler
(src/backend/src/routes/twilio.ts)

The state of one call under the JavaScript event loop: handler code
runs atomically between `await` points. The suspension points that matter
to stream admission are
* `await db.saveCallerName(...)` in `processPrompt`, reached *before*
  `registerStreamStart` when the name of a new caller is extracted
  (phase `beforeStart`);
* the generation itself, from `registerStreamStart` until the stream is
  consumed or errors (phase `generating`);
* the 500ms pacing delay in `processQueuedMessages`, after which the
  drained prompt runs `processPrompt` (phase `draining`).

Each in-flight `processPrompt` execution is a task; a step either delivers
an inbound envelope (running `handlePrompt` synchronously) or resumes one
suspended task at its await point. The boolean result of `registerStreamStart`
is ignored by `processPrompt`, exactly as in the source, and the drained
prompt of `processQueuedMessages` is processed without a fresh
`isStreamActive` check. Interrupt-kind messages never enter the queue
(as in the source, `handleInterrupt` enqueues nothing), so
`generationComplete` only ever drains prompt messages. -/

/-- The phase at which an in-flight `processPrompt` task is suspended. -/
inductive TaskPhase
  | beforeStart (text : String)
  | generating
  | draining (text : String)
deriving DecidableEq

/-- The state of one call: coordinator entry, message queue, in-flight
handler tasks, caller-recognition flags and connection flags. -/
structure RelaySys where
  coord : Option StreamState
  queue : List QueuedMessage
  tasks : List TaskPhase
  isNewCaller : Bool
  nameExtracted : Bool
  hasPhone : Bool
  pendingInterrupt : Bool
  ttsStoppedByUser : Bool
deriving DecidableEq

/-- The condition under which `processPrompt` suspends at
`await db.saveCallerName` before registering the stream start. -/
def nameBranch (s : RelaySys) (text : String) : Bool :=
  s.isNewCaller && !s.nameExtracted &&
    (extractNameFromResponse text).isSome && s.hasPhone

/-- Events of one call: envelope arrivals and task resumptions (the index
picks the task; `failed` distinguishes the error path of a generation,
which skips the queue drain). -/
inductive RelayEv
  | promptArrive (text : String) (now : Int)
  | interruptArrive (now : Int)
  | resumeNameSave (i : Nat) (now : Int)
  | generationComplete (i : Nat) (failed : Bool) (now : Int)
  | resumeDrain (i : Nat) (now : Int)
deriving DecidableEq

/-- One atomic step of the event loop. The call id is opaque (`"CA"`): all
state here belongs to the one call under consideration. -/
def relayStep (s : RelaySys) : RelayEv → RelaySys
  | RelayEv.promptArrive text now =>
    if text = "" then s
    else
    let p := isStreamActive s.coord now
    let pr := handlePrompt text (some "CA") p.1 s.queue now
      ⟨s.pendingInterrupt, s.ttsStoppedByUser⟩
    let s1 := { s with
      coord := p.2
      queue := pr.queue
      pendingInterrupt := pr.flags.pendingInterrupt
      ttsStoppedByUser := pr.flags.ttsStoppedByUser }
    if pr.startsProcessing then
      if nameBranch s1 text then
        { s1 with tasks := s1.tasks ++ [TaskPhase.beforeStart text] }
      else
        { s1 with coord := (registerStreamStart s1.coord now).2,
                  tasks := s1.tasks ++ [TaskPhase.generating] }
    else s1
  | RelayEv.interruptArrive now =>
    let p := isStreamActive s.coord now
    let s1 := { s with coord := p.2 }
    if p.1 then { s1 with pendingInterrupt := true } else s1
  | RelayEv.resumeNameSave i now =>
    match s.tasks.get? i with
    | some (TaskPhase.beforeStart _) =>
      { s with nameExtracted := true,
               coord := (registerStreamStart s.coord now).2,
               tasks := s.tasks.set i TaskPhase.generating }
    | _ => s
  | RelayEv.generationComplete i failed _ =>
    match s.tasks.get? i with
    | some TaskPhase.generating =>
      let s1 := { s with coord := registerStreamEnd s.coord }
      if failed then { s1 with tasks := s1.tasks.eraseIdx i }
      else
        match s1.queue with
        | [] => { s1 with tasks := s1.tasks.eraseIdx i }
        | m :: restQ =>
          if m.mtype == MsgType.prompt && !(m.content == "") then
            { s1 with queue := restQ,
                      tasks := s1.tasks.set i (TaskPhase.draining m.content) }
          else { s1 with queue := restQ, tasks := s1.tasks.eraseIdx i }
    | _ => s
  | RelayEv.resumeDrain i now =>
    match s.tasks.get? i with
    | some (TaskPhase.draining text) =>
      if nameBranch s text then
        { s with tasks := s.tasks.set i (TaskPhase.beforeStart text) }
      else
        { s with coord := (registerStreamStart s.coord now).2,
                 tasks := s.tasks.set i TaskPhase.generating }
    | _ => s

/-- A task currently running a generation. -/
def isGenerating : TaskPhase → Bool
  | TaskPhase.generating => true
  | _ => false

/-- How many generations are in flight for the call. -/
def genCount (s : RelaySys) : Nat := s.tasks.countP isGenerating

/-- Run a sequence of events. -/
def relayRun (s : RelaySys) (evs : List RelayEv) : RelaySys :=
  evs.foldl relayStep s

/-- A freshly set-up call of a returning caller: no coordinator entry, no
queue, no tasks. -/
def relayInit : RelaySys :=
  ⟨none, [], [], false, false, true, false, false⟩

/-- The five-event interleaving that defeats single-flight: a prompt starts
generation A; a second prompt arrives during A and is queued; A completes
and begins draining the queued prompt (pacing delay); a third prompt
arrives during the delay and starts generation C; the drained prompt then
resumes, and `processPrompt` starts its generation even though
`registerStreamStart` returned `false`. -/
def c1ViolationTrace : List RelayEv :=
  [RelayEv.promptArrive "pika" 0,
   RelayEv.promptArrive "char" 0,
   RelayEv.generationComplete 0 false 0,
   RelayEv.promptArrive "squi" 0,
   RelayEv.resumeDrain 0 0]

/-! ## Theorems about the message queue -/

/-- The duplicate test holds exactly when some queue entry has the same kind
and content, lies inside the deduplication window and is unprocessed. -/
theorem isDuplicate_eq_true_iff (q : List QueuedMessage) (now : Int) (m : MsgIn) :
    isDuplicate q now m = true ↔
      ∃ x ∈ q, x.content = m.content ∧ x.mtype = m.mtype ∧
        now - x.timestamp < deduplicationWindow ∧ x.processed = false := by
  simp only [isDuplicate, List.any_eq_true, Bool.and_eq_true, decide_eq_true_eq,
    Bool.not_eq_true']
  tauto

/-- A message whose content occurs nowhere in the queue is never filtered. -/
theorem isDuplicate_eq_false_of_content_ne (q : List QueuedMessage) (now : Int)
    (m : MsgIn) (h : ∀ msg ∈ q, msg.content ≠ m.content) :
    isDuplicate q now m = false := by
  rw [← Bool.not_eq_true, isDuplicate_eq_true_iff]
  rintro ⟨x, hx, hc, -⟩
  exact h x hx hc

/-- Folding `enqueue` over messages with pairwise distinct contents keeps,
in order, the last `maxQueueSize` of the (initial ++ appended) entries. -/
theorem enqueueAll_of_pairwise_ne (inputs : List (Int × MsgIn)) :
    ∀ q : List QueuedMessage, q.length ≤ maxQueueSize →
      ((q.map QueuedMessage.content) ++
        inputs.map (fun p => p.2.content)).Pairwise (· ≠ ·) →
      enqueueAll q inputs =
        (q ++ inputs.map fun p => toEntry p.1 p.2).drop
          (q.length + inputs.length - maxQueueSize) := by
  induction inputs with
  | nil =>
    intro q hq _
    simp [enqueueAll, Nat.sub_eq_zero_of_le hq]
  | cons p rest ih =>
    intro q hq hpw
    have hcross : ∀ msg ∈ q, msg.content ≠ p.2.content := by
      intro msg hmsg
      have := (List.pairwise_append.mp hpw).2.2
      exact this msg.content (List.mem_map_of_mem _ hmsg) p.2.content
        (by simp)
    by_cases hfull : maxQueueSize ≤ q.length
    · have hqlen : q.length = maxQueueSize := le_antisymm hq hfull
      have hne : q ≠ [] := by
        intro h; rw [h] at hqlen; simp [maxQueueSize] at hqlen
      have hnodup : isDuplicate q.tail p.1 p.2 = false := by
        rw [← List.drop_one]
        exact isDuplicate_eq_false_of_content_ne _ _ _
          (fun msg hmsg => hcross msg (List.drop_subset 1 q hmsg))
      have hstep : enqueue q p.1 p.2 = (true, q.drop 1 ++ [toEntry p.1 p.2]) := by
        simp [enqueue, hfull, hnodup]
      have hsub :
          ((q.drop 1 ++ [toEntry p.1 p.2]).map QueuedMessage.content ++
            rest.map (fun p => p.2.content)).Pairwise (· ≠ ·) := by
        have h1 : (q.drop 1 ++ [toEntry p.1 p.2]).map QueuedMessage.content ++
            rest.map (fun p => p.2.content) =
            (q.map QueuedMessage.content).drop 1 ++
              (p.2.content :: rest.map (fun p => p.2.content)) := by
          simp [toEntry, List.map_drop]
        rw [h1]
        exact List.Pairwise.sublist
          ((List.drop_sublist 1 _).append_right _) (by simpa using hpw)
      have h10 : maxQueueSize = 10 := rfl
      have hih := ih (q.drop 1 ++ [toEntry p.1 p.2])
        (by simp [List.length_drop, hqlen]; omega) hsub
      have hq1 : (1 : ℕ) ≤ q.length := by omega
      calc enqueueAll q (p :: rest)
          = enqueueAll (q.drop 1 ++ [toEntry p.1 p.2]) rest := by
            simp [enqueueAll, hstep]
        _ = ((q.drop 1 ++ [toEntry p.1 p.2]) ++ rest.map fun p => toEntry p.1 p.2).drop
              ((q.drop 1 ++ [toEntry p.1 p.2]).length + rest.length - maxQueueSize) := hih
        _ = (q ++ (p :: rest).map fun p => toEntry p.1 p.2).drop
              (q.length + (p :: rest).length - maxQueueSize) := by
            have hA : (q.drop 1 ++ [toEntry p.1 p.2]).length + rest.length
                - maxQueueSize = rest.length := by
              simp only [List.length_append, List.length_drop,
                List.length_cons, List.length_nil]
              omega
            have hB : q.length + (p :: rest).length - maxQueueSize
                = 1 + rest.length := by
              simp only [List.length_cons]
              omega
            rw [hA, hB, List.append_assoc, List.singleton_append, List.map_cons,
              ← List.drop_drop, List.drop_append_of_le_length hq1]
    · push_neg at hfull
      have hstep : enqueue q p.1 p.2 = (true, q ++ [toEntry p.1 p.2]) := by
        have hnodup : isDuplicate q p.1 p.2 = false :=
          isDuplicate_eq_false_of_content_ne _ _ _ hcross
        simp [enqueue, hnodup, Nat.not_le.mpr hfull]
      have hsub :
          ((q ++ [toEntry p.1 p.2]).map QueuedMessage.content ++
            rest.map (fun p => p.2.content)).Pairwise (· ≠ ·) := by
        simpa [toEntry] using hpw
      have := ih (q ++ [toEntry p.1 p.2]) (by simp; omega) hsub
      calc enqueueAll q (p :: rest)
          = enqueueAll (q ++ [toEntry p.1 p.2]) rest := by
            simp [enqueueAll, hstep]
        _ = ((q ++ [toEntry p.1 p.2]) ++ rest.map fun p => toEntry p.1 p.2).drop
              ((q ++ [toEntry p.1 p.2]).length + rest.length - maxQueueSize) := this
        _ = (q ++ (p :: rest).map fun p => toEntry p.1 p.2).drop
              (q.length + (p :: rest).length - maxQueueSize) := by
            simp [List.append_assoc]
            congr 1
            omega

/-- C2: the per-call queue holds at most 10 entries; enqueuing 11 distinct
(non-duplicate) messages into an empty queue leaves exactly 10 entries, the
first-enqueued message having been evicted and the 11th appended: the final
queue is exactly the 2nd through 11th message, in arrival order. -/
theorem C2_bounded_queue_drop_oldest (inputs : List (Int × MsgIn))
    (hlen : inputs.length = 11)
    (hdist : (inputs.map fun p => p.2.content).Pairwise (· ≠ ·)) :
    (enqueueAll [] inputs).length = 10 ∧
    enqueueAll [] inputs = (inputs.drop 1).map fun p => toEntry p.1 p.2 := by
  have h10 : maxQueueSize = 10 := rfl
  have h := enqueueAll_of_pairwise_ne inputs []
    (by simp) (by simpa using hdist)
  simp only [List.nil_append, List.length_nil, Nat.zero_add] at h
  rw [hlen, h10] at h
  constructor
  · rw [h]
    simp [List.length_drop, hlen]
  · rw [h]
    norm_num [List.map_drop]

/-- Witness for C2 at a concrete list of 11 distinct messages. -/
theorem C2_bounded_queue_drop_oldest_witness :
    c2DemoInputs.length = 11 ∧
    (c2DemoInputs.map fun p => p.2.content).Pairwise (· ≠ ·) ∧
    ((enqueueAll [] c2DemoInputs).length = 10 ∧
      enqueueAll [] c2DemoInputs = (c2DemoInputs.drop 1).map fun p => toEntry p.1 p.2) :=
  ⟨by decide, by decide,
    C2_bounded_queue_drop_oldest c2DemoInputs (by decide) (by decide)⟩

/-- C5: while the per-call queue is under capacity, a message whose kind and
content equal those of an unprocessed entry enqueued less than 500ms earlier
is rejected (`enqueue` returns `false`, queue unchanged); if every entry of
the same kind and content is at least 500ms old or already processed, the
message is accepted and appended. -/
theorem C5_deduplication_window (q : List QueuedMessage) (now : Int) (m : MsgIn)
    (hq : q.length < maxQueueSize) :
    ((∃ x ∈ q, x.mtype = m.mtype ∧ x.content = m.content ∧
        now - x.timestamp < deduplicationWindow ∧ x.processed = false) →
      enqueue q now m = (false, q)) ∧
    ((∀ x ∈ q, x.mtype = m.mtype → x.content = m.content →
        deduplicationWindow ≤ now - x.timestamp ∨ x.processed = true) →
      enqueue q now m = (true, q ++ [toEntry now m])) := by
  have hnotfull : ¬ maxQueueSize ≤ q.length := by omega
  constructor
  · rintro ⟨x, hx, h1, h2, h3, h4⟩
    have hdup : isDuplicate q now m = true :=
      (isDuplicate_eq_true_iff _ _ _).mpr ⟨x, hx, h2, h1, h3, h4⟩
    simp [enqueue, hnotfull, hdup]
  · intro hall
    have hdup : isDuplicate q now m = false := by
      rw [← Bool.not_eq_true, isDuplicate_eq_true_iff]
      rintro ⟨x, hx, hc, hk, hw, hp⟩
      rcases hall x hx hk hc with h | h
      · omega
      · rw [hp] at h
        exact Bool.false_ne_true h
    simp [enqueue, hnotfull, hdup]

/-- Witness for C5: a repeat 100ms later is rejected, a repeat 600ms later is
accepted and appended. -/
theorem C5_deduplication_window_witness :
    (enqueue [⟨MsgType.prompt, "hi", 0, false⟩] 100 ⟨MsgType.prompt, "hi"⟩ =
      (false, [⟨MsgType.prompt, "hi", 0, false⟩])) ∧
    (enqueue [⟨MsgType.prompt, "hi", 0, false⟩] 600 ⟨MsgType.prompt, "hi"⟩ =
      (true, [⟨MsgType.prompt, "hi", 0, false⟩] ++ [toEntry 600 ⟨MsgType.prompt, "hi"⟩])) :=
  ⟨(C5_deduplication_window [⟨MsgType.prompt, "hi", 0, false⟩] 100
      ⟨MsgType.prompt, "hi"⟩ (by decide)).1 (by decide),
   (C5_deduplication_window [⟨MsgType.prompt, "hi", 0, false⟩] 600
      ⟨MsgType.prompt, "hi"⟩ (by decide)).2 (by decide)⟩

/-- C10: with a full queue of 10 entries, `enqueue` first evicts the oldest
entry; when the incoming message is then filtered as a duplicate of a
surviving unprocessed in-window entry, it returns `false` and the queue has
shrunk from 10 to 9 entries, the new message not added. -/
theorem C10_eviction_precedes_dedup (q : List QueuedMessage) (now : Int) (m : MsgIn)
    (hq : q.length = maxQueueSize)
    (hdup : ∃ x ∈ q.drop 1, x.mtype = m.mtype ∧ x.content = m.content ∧
      now - x.timestamp < deduplicationWindow ∧ x.processed = false) :
    enqueue q now m = (false, q.drop 1) ∧ (q.drop 1).length = 9 := by
  have hfull : maxQueueSize ≤ q.length := le_of_eq hq.symm
  obtain ⟨x, hx, h1, h2, h3, h4⟩ := hdup
  have hdup' : isDuplicate q.tail now m = true := by
    rw [← List.drop_one]
    exact (isDuplicate_eq_true_iff _ _ _).mpr ⟨x, hx, h2, h1, h3, h4⟩
  constructor
  · simp [enqueue, hfull, hdup']
  · rw [List.length_drop, hq]
    rfl

/-- Witness for C10: a full queue of entries a–j and an incoming duplicate of
the second entry. -/
theorem C10_eviction_precedes_dedup_witness :
    enqueue
      [⟨MsgType.prompt, "a", 0, false⟩, ⟨MsgType.prompt, "b", 0, false⟩,
       ⟨MsgType.prompt, "c", 0, false⟩, ⟨MsgType.prompt, "d", 0, false⟩,
       ⟨MsgType.prompt, "e", 0, false⟩, ⟨MsgType.prompt, "f", 0, false⟩,
       ⟨MsgType.prompt, "g", 0, false⟩, ⟨MsgType.prompt, "h", 0, false⟩,
       ⟨MsgType.prompt, "i", 0, false⟩, ⟨MsgType.prompt, "j", 0, false⟩]
      100 ⟨MsgType.prompt, "b"⟩ =
      (false,
        [⟨MsgType.prompt, "b", 0, false⟩,
         ⟨MsgType.prompt, "c", 0, false⟩, ⟨MsgType.prompt, "d", 0, false⟩,
         ⟨MsgType.prompt, "e", 0, false⟩, ⟨MsgType.prompt, "f", 0, false⟩,
         ⟨MsgType.prompt, "g", 0, false⟩, ⟨MsgType.prompt, "h", 0, false⟩,
         ⟨MsgType.prompt, "i", 0, false⟩, ⟨MsgType.prompt, "j", 0, false⟩]) ∧
    ([⟨MsgType.prompt, "a", 0, false⟩, ⟨MsgType.prompt, "b", 0, false⟩,
      ⟨MsgType.prompt, "c", 0, false⟩, ⟨MsgType.prompt, "d", 0, false⟩,
      ⟨MsgType.prompt, "e", 0, false⟩, ⟨MsgType.prompt, "f", 0, false⟩,
      ⟨MsgType.prompt, "g", 0, false⟩, ⟨MsgType.prompt, "h", 0, false⟩,
      ⟨MsgType.prompt, "i", 0, false⟩,
      (⟨MsgType.prompt, "j", 0, false⟩ : QueuedMessage)].drop 1).length = 9 :=
  C10_eviction_precedes_dedup _ 100 ⟨MsgType.prompt, "b"⟩ (by decide) (by decide)

/-! ## Theorems about the stream coordinator -/

/-- C4: staleness is measured from the last heartbeat: whatever `startedAt`
is, once more than 30000ms have passed since `lastActivity`, `isStreamActive`
reports `false` and marks the entry inactive; and a heartbeat
(`updateActivity`) on an active stream resets `lastActivity`, so that any
later check within 30000ms of the heartbeat still reports the stream
active. -/
theorem C4_staleness_from_last_heartbeat (st : StreamState) (now nowH now2 : Int)
    (hactive : st.isActive = true) :
    (streamTimeout < now - st.lastActivity →
      isStreamActive (some st) now = (false, some { st with isActive := false })) ∧
    updateActivity (some st) nowH = some { st with lastActivity := nowH } ∧
    (now2 - nowH ≤ streamTimeout →
      (isStreamActive (updateActivity (some st) nowH) now2).1 = true) := by
  refine ⟨?_, ?_, ?_⟩
  · intro h
    simp [isStreamActive, hactive, h]
  · simp [updateActivity, hactive]
  · intro h
    have hnot : ¬ streamTimeout < now2 - nowH := by omega
    simp [updateActivity, isStreamActive, hactive, hnot]

/-- Witness for C4: a stream started at time 0 with last activity at time 0
is reported inactive at time 40000; after a heartbeat at 35000, a check at
60000 still reports it active. -/
theorem C4_staleness_from_last_heartbeat_witness :
    isStreamActive (some ⟨true, 0, 0⟩) 40000 = (false, some ⟨false, 0, 0⟩) ∧
    updateActivity (some ⟨true, 0, 0⟩) 35000 = some ⟨true, 0, 35000⟩ ∧
    (isStreamActive (updateActivity (some ⟨true, 0, 0⟩) 35000) 60000).1 = true :=
  ⟨(C4_staleness_from_last_heartbeat ⟨true, 0, 0⟩ 40000 35000 60000 rfl).1
      (by decide),
   (C4_staleness_from_last_heartbeat ⟨true, 0, 0⟩ 40000 35000 60000 rfl).2.1,
   (C4_staleness_from_last_heartbeat ⟨true, 0, 0⟩ 40000 35000 60000 rfl).2.2
      (by decide)⟩

/-! ## Theorems about name extraction -/

/-- C9: each of the utterances "My name is Ash", I-apostrophe-m followed by " Ash", "This is Ash",
"Call me Ash" and "Ash" extracts the name `Ash`; the multi-word utterance
"the grass type", which matches no introduction pattern, extracts nothing. -/
theorem C9_name_extraction_samples :
    extractNameFromResponse "My name is Ash" = some "Ash" ∧
    extractNameFromResponse (String.mk (['I', apos] ++ "m Ash".data)) = some "Ash" ∧
    extractNameFromResponse "This is Ash" = some "Ash" ∧
    extractNameFromResponse "Call me Ash" = some "Ash" ∧
    extractNameFromResponse "Ash" = some "Ash" ∧
    extractNameFromResponse "the grass type" = none := by
  decide

/-! ## Theorems about `sendStream` and stop handling -/

/-- The loop sends exactly the chunks whose iteration saw the stop flag
false, in order, all as non-final text envelopes. -/
theorem sendStreamLoop_sent (chunks : List (String × Bool)) :
    (sendStreamLoop chunks).1 =
      (chunks.filter fun c => !c.2).map fun c => Envelope.text c.1 false := by
  induction chunks with
  | nil => rfl
  | cons c rest ih =>
    obtain ⟨chunk, stopped⟩ := c
    cases stopped <;> simp [sendStreamLoop, ih]

/-- The loop accumulates every chunk into `fullResponse`, suppressed or
not. -/
theorem sendStreamLoop_full (chunks : List (String × Bool)) :
    (sendStreamLoop chunks).2 = concatStrings (chunks.map Prod.fst) := by
  induction chunks with
  | nil => rfl
  | cons c rest ih =>
    obtain ⟨chunk, stopped⟩ := c
    simp [sendStreamLoop, ih, concatStrings]

/-- C6: a stop-signalling prompt arriving while a stream is active emits
exactly one `{type:"stop"}` envelope, aborts nothing, starts no generation
and enqueues nothing, and sets the suppression flag; chunks whose iteration
sees the flag set are not sent to the client but are still accumulated, so
the completed response still joins the transcript. -/
theorem C6_stop_request_handling (text sid : String) (q : List QueuedMessage)
    (now : Int) (fl : RelayFlags) (chunks : List (String × Bool))
    (history : List SimpleMessage) (hstop : isStopCommand text = true) :
    handlePrompt text (some sid) true q now fl =
      ⟨[Envelope.stop], q, ⟨false, true⟩, false, false⟩ ∧
    (sendStreamLoop chunks).1 =
      ((chunks.filter fun c => !c.2).map fun c => Envelope.text c.1 false) ∧
    (sendStreamLoop chunks).2 = concatStrings (chunks.map Prod.fst) ∧
    ((sendStream chunks true).2 ≠ "" →
      appendAssistantTurn history (sendStream chunks true).2 =
        history ++ [⟨Role.assistant, (sendStream chunks true).2⟩]) := by
  have hne : text ≠ "" := by
    intro h
    rw [h] at hstop
    exact absurd hstop (by decide)
  refine ⟨?_, sendStreamLoop_sent chunks, sendStreamLoop_full chunks, ?_⟩
  · simp [handlePrompt, hne, hstop]
  · intro h
    simp [appendAssistantTurn, h]

/-- Witness for C6 at the utterance "stop" with two suppressed chunks. -/
theorem C6_stop_request_handling_witness :
    handlePrompt "stop" (some "CA1") true [] 0 ⟨false, false⟩ =
      ⟨[Envelope.stop], [], ⟨false, true⟩, false, false⟩ ∧
    (sendStreamLoop [("Pika", true), ("chu", true)]).1 =
      ((([("Pika", true), ("chu", true)].filter fun c => !c.2).map
        fun c => Envelope.text c.1 false)) ∧
    (sendStreamLoop [("Pika", true), ("chu", true)]).2 =
      concatStrings ([("Pika", true), ("chu", true)].map Prod.fst) ∧
    ((sendStream [("Pika", true), ("chu", true)] true).2 ≠ "" →
      appendAssistantTurn [⟨Role.system, "s"⟩]
          (sendStream [("Pika", true), ("chu", true)] true).2 =
        [⟨Role.system, "s"⟩] ++
          [⟨Role.assistant, (sendStream [("Pika", true), ("chu", true)] true).2⟩]) :=
  C6_stop_request_handling "stop" "CA1" [] 0 ⟨false, false⟩
    [("Pika", true), ("chu", true)] [⟨Role.system, "s"⟩] (by decide)

/-- C7 counterexample: a generation stream consumed to completion while the
suppression flag is set accumulates its full response but sends no envelope
at all — in particular not the terminal `{token:"", last:true}` — so the
claim that every completed stream is terminated by exactly one terminal
envelope fails. -/
theorem C7_counterexample_no_terminal_when_stopped :
    (sendStream [("Pikachu", true)] true).2 = "Pikachu" ∧
    (sendStream [("Pikachu", true)] true).1 = [] ∧
    ((sendStream [("Pikachu", true)] true).1.countP isTerminalEnvelope) = 0 := by
  decide

/-- C7 (amended): for every prompt whose generation stream is consumed to
completion with no stop request signalled (the suppression flag stays
false), the handler sends each chunk as `{type:"text", token, last:false}`
and then exactly one terminal `{type:"text", token:"", last:true}`. -/
theorem C7_stream_termination (chunks : List String) :
    sendStream (chunks.map fun c => (c, false)) false =
      (chunks.map (fun c => Envelope.text c false) ++ [Envelope.text "" true],
        concatStrings chunks) ∧
    ((sendStream (chunks.map fun c => (c, false)) false).1.countP
      isTerminalEnvelope) = 1 := by
  have h1 : (sendStreamLoop (chunks.map fun c => (c, false))).1 =
      chunks.map fun c => Envelope.text c false := by
    induction chunks with
    | nil => rfl
    | cons c rest ih => simp [sendStreamLoop, ih]
  have h2 : (sendStreamLoop (chunks.map fun c => (c, false))).2 =
      concatStrings chunks := by
    clear h1
    induction chunks with
    | nil => rfl
    | cons c rest ih => simp [sendStreamLoop, ih, concatStrings]
  constructor
  · simp [sendStream, h1, h2]
  · simp only [sendStream, if_neg Bool.false_ne_true]
    simp only [List.countP_append, h1]
    have hz : (chunks.map fun c => Envelope.text c false).countP
        isTerminalEnvelope = 0 := by
      rw [List.countP_eq_zero]
      intro e he
      obtain ⟨c, -, rfl⟩ := List.mem_map.mp he
      simp [isTerminalEnvelope]
    simp [hz, isTerminalEnvelope, List.countP_cons]

/-! ## Theorems about the batch writer -/

/-- The result of `mapSet` is never empty. -/
theorem mapSet_ne_nil (q : List BatchItem) (item : BatchItem) :
    mapSet q item ≠ [] := by
  by_cases h : q.any fun x => x.callSid == item.callSid
  · intro hc
    rw [mapSet, if_pos h, List.map_eq_nil_iff] at hc
    subst hc
    simp at h
  · simp [mapSet, h]

/-- Folding same-call non-ended updates over a pending map that holds only
that call keeps a single pending entry carrying the latest update, without
issuing any write. -/
theorem bwEnqueueAll_single_call (c : String) (w : List BatchItem)
    (rest : List (Int × List SimpleMessage)) :
    ∀ (t : Int) (m : List SimpleMessage),
      bwEnqueueAll ⟨[⟨c, m, false, t⟩], true, w⟩ c rest =
        ⟨[⟨c, (rest.foldl (fun _ p => p) (t, m)).2, false,
           (rest.foldl (fun _ p => p) (t, m)).1⟩], true, w⟩ := by
  induction rest with
  | nil => intro t m; rfl
  | cons p rest ih =>
    intro t m
    obtain ⟨t1, m1⟩ := p
    have hstep : bwEnqueue ⟨[⟨c, m, false, t⟩], true, w⟩ c m1 false t1 =
        ⟨[⟨c, m1, false, t1⟩], true, w⟩ := by
      simp [bwEnqueue, mapSet, maxBatchSize]
    simp only [bwEnqueueAll, List.foldl_cons]
    rw [hstep]
    exact ih t1 m1

/-- C3: updates for one call enqueued within a single batch window coalesce
(last write wins) into one store write issued at the timer flush; an enqueue
with `ended = true` flushes the whole pending map immediately; an enqueue
that brings the pending map to 10 entries flushes the whole pending map
immediately. -/
theorem C3_batch_writer_coalesce_and_forced_flush (c : String) (t0 : Int)
    (m0 : List SimpleMessage) (rest : List (Int × List SimpleMessage))
    (w : List BatchItem) (b0 : Bool) (s : BatchWriterState) (c2 : String)
    (msgs2 : List SimpleMessage) (now2 : Int) :
    (timerFire (bwEnqueueAll ⟨[], b0, w⟩ c ((t0, m0) :: rest)) =
      ⟨[], false,
        w ++ [⟨c, (rest.foldl (fun _ p => p) (t0, m0)).2, false,
              (rest.foldl (fun _ p => p) (t0, m0)).1⟩]⟩) ∧
    (bwEnqueue s c2 msgs2 true now2 =
      ⟨[], false, s.writes ++ mapSet s.queue ⟨c2, msgs2, true, now2⟩⟩) ∧
    (s.queue.length = 9 → (∀ x ∈ s.queue, x.callSid ≠ c2) →
      bwEnqueue s c2 msgs2 false now2 =
        ⟨[], false, s.writes ++ (s.queue ++ [⟨c2, msgs2, false, now2⟩])⟩) := by
  refine ⟨?_, ?_, ?_⟩
  · have hfirst : bwEnqueue ⟨[], b0, w⟩ c m0 false t0 =
        ⟨[⟨c, m0, false, t0⟩], true, w⟩ := by
      simp [bwEnqueue, mapSet, maxBatchSize]
    have hall := bwEnqueueAll_single_call c w rest t0 m0
    simp only [bwEnqueueAll, List.foldl_cons] at hall ⊢
    rw [hfirst, hall]
    simp [timerFire, flush]
  · have hne := mapSet_ne_nil s.queue ⟨c2, msgs2, true, now2⟩
    simp [bwEnqueue, flush, List.isEmpty_iff, hne]
  · intro hlen hfresh
    have hnomem : (s.queue.any fun x =>
        x.callSid == (⟨c2, msgs2, false, now2⟩ : BatchItem).callSid) = false := by
      rw [List.any_eq_false]
      intro x hx
      simpa using hfresh x hx
    have hms : mapSet s.queue ⟨c2, msgs2, false, now2⟩ =
        s.queue ++ [⟨c2, msgs2, false, now2⟩] := by
      rw [mapSet, if_neg (by simp [hnomem])]
    have hlen10 : maxBatchSize ≤ (mapSet s.queue ⟨c2, msgs2, false, now2⟩).length := by
      rw [hms]
      simp [hlen, maxBatchSize]
    have hne : mapSet s.queue ⟨c2, msgs2, false, now2⟩ ≠ [] :=
      mapSet_ne_nil _ _
    simp [bwEnqueue, hlen10, flush, List.isEmpty_iff, hne, hms, hlen,
      maxBatchSize]

/-- Witness for C3: three coalesced updates for one call produce one write
carrying the last transcript; an ended update and a 10th-entry update each
force an immediate flush of the whole pending map. -/
theorem C3_batch_writer_coalesce_and_forced_flush_witness :
    (timerFire (bwEnqueueAll ⟨[], false, []⟩ "CA1"
        [(0, [⟨Role.user, "hi"⟩]),
         (100, [⟨Role.user, "hi"⟩, ⟨Role.assistant, "yo"⟩]),
         (200, [⟨Role.user, "hi"⟩, ⟨Role.assistant, "yo"⟩, ⟨Role.user, "ok"⟩])]) =
      ⟨[], false,
        [⟨"CA1", [⟨Role.user, "hi"⟩, ⟨Role.assistant, "yo"⟩, ⟨Role.user, "ok"⟩],
          false, 200⟩]⟩) ∧
    (bwEnqueue ⟨c3DemoQueue, true, []⟩ "CA2" [⟨Role.user, "x"⟩] true 500 =
      ⟨[], false, c3DemoQueue ++ [⟨"CA2", [⟨Role.user, "x"⟩], true, 500⟩]⟩) ∧
    (bwEnqueue ⟨c3DemoQueue, true, []⟩ "CA2" [⟨Role.user, "x"⟩] false 500 =
      ⟨[], false, c3DemoQueue ++ [⟨"CA2", [⟨Role.user, "x"⟩], false, 500⟩]⟩) := by
  have h := C3_batch_writer_coalesce_and_forced_flush "CA1" 0 [⟨Role.user, "hi"⟩]
    [(100, [⟨Role.user, "hi"⟩, ⟨Role.assistant, "yo"⟩]),
     (200, [⟨Role.user, "hi"⟩, ⟨Role.assistant, "yo"⟩, ⟨Role.user, "ok"⟩])]
    [] false ⟨c3DemoQueue, true, []⟩ "CA2" [⟨Role.user, "x"⟩] 500
  exact ⟨h.1, h.2.1, h.2.2 (by decide) (by decide)⟩

/-! ## Theorems about the deadline-bounded caller lookup -/

/-- C8: when the lookup has not resolved within the deadline,
`getCallerQuickly` returns `none` at the deadline — independently of the
value the pending lookup would produce (it is not waited for) — and setup
proceeds, seeding the session with the first-time-caller system turn
instead of blocking or failing. -/
theorem C8_store_read_timeout_degradation (lookupDelay timeoutMs : Int)
    (r r2 : Option Caller) (contextInfo : String) (pick : Nat)
    (h : timeoutMs ≤ lookupDelay) :
    getCallerQuickly lookupDelay r timeoutMs = none ∧
    getCallerQuickly lookupDelay r timeoutMs =
      getCallerQuickly lookupDelay r2 timeoutMs ∧
    setupSystemPrompt (getCallerQuickly lookupDelay r timeoutMs)
        contextInfo pick = newCallerSystemPrompt ∧
    seedSessionTurns
        (setupSystemPrompt (getCallerQuickly lookupDelay r timeoutMs)
          contextInfo pick) =
      [⟨Role.system, newCallerSystemPrompt⟩] := by
  have hnot : ¬ lookupDelay < timeoutMs := by omega
  refine ⟨by simp [getCallerQuickly, hnot], ?_, ?_, ?_⟩ <;>
    simp [getCallerQuickly, hnot, setupSystemPrompt, seedSessionTurns]

/-- Witness for C8: a lookup that would resolve with a named caller at
200ms loses the race against the 100ms deadline. -/
theorem C8_store_read_timeout_degradation_witness :
    getCallerQuickly 200 (some ⟨"+15551234567", some "Misty"⟩) 100 = none ∧
    getCallerQuickly 200 (some ⟨"+15551234567", some "Misty"⟩) 100 =
      getCallerQuickly 200 none 100 ∧
    setupSystemPrompt (getCallerQuickly 200 (some ⟨"+15551234567", some "Misty"⟩) 100)
        "" 0 = newCallerSystemPrompt ∧
    seedSessionTurns
        (setupSystemPrompt
          (getCallerQuickly 200 (some ⟨"+15551234567", some "Misty"⟩) 100) "" 0) =
      [⟨Role.system, newCallerSystemPrompt⟩] :=
  C8_store_read_timeout_degradation 200 100 (some ⟨"+15551234567", some "Misty"⟩)
    none "" 0 (by decide)

/-! ## Theorems about single-flight admission -/

/-- While the coordinator reports the stream active, `handlePrompt` never
falls through into `processPrompt`. -/
theorem handlePrompt_active_no_processing (text sid : String)
    (q : List QueuedMessage) (now : Int) (fl : RelayFlags) :
    (handlePrompt text (some sid) true q now fl).startsProcessing = false := by
  by_cases ht : text = "" <;> by_cases hstop : isStopCommand text <;>
    simp [handlePrompt, ht, hstop]

/-- C1 counterexample: after the first four events of `c1ViolationTrace`
exactly one generation is in flight and the coordinator reports the stream
active, yet the fifth event — the queued prompt resuming after the pacing
delay — starts a second generation, reaching a state with two generations
in flight for the same call. The single-flight invariant fails on this
interleaving of prompt arrivals. -/
theorem C1_counterexample_two_generations_in_flight :
    genCount (relayRun relayInit (c1ViolationTrace.take 4)) = 1 ∧
    (isStreamActive (relayRun relayInit (c1ViolationTrace.take 4)).coord 0).1 =
      true ∧
    genCount (relayRun relayInit c1ViolationTrace) = 2 := by
  decide

/-- C1 (amended): at envelope-arrival granularity the admission policy
holds — a prompt arriving while the coordinator reports a generation active
never starts a generation at that step (it is enqueued, or answered with a
stop envelope), and an interrupt arrival never starts one; the invariant is
defeated only by the resumption of a suspended handler (the queued-prompt
drain after the pacing delay, or the name-save await), where
the refusal of `registerStreamStart` is ignored. -/
theorem C1_single_flight_at_arrival_steps (s : RelaySys) (text : String)
    (now : Int) (hactive : (isStreamActive s.coord now).1 = true) :
    (relayStep s (RelayEv.promptArrive text now)).tasks = s.tasks ∧
    genCount (relayStep s (RelayEv.promptArrive text now)) = genCount s ∧
    (relayStep s (RelayEv.interruptArrive now)).tasks = s.tasks := by
  refine ⟨?_, ?_, ?_⟩
  · by_cases ht : text = ""
    · simp [relayStep, ht]
    · simp [relayStep, ht, hactive, handlePrompt_active_no_processing]
  · by_cases ht : text = ""
    · simp [relayStep, ht]
    · simp [relayStep, genCount, ht, hactive, handlePrompt_active_no_processing]
  · cases hp : (isStreamActive s.coord now).1 <;> simp [relayStep, hp]

/-- Witness for the amended C1 at a state with one active generation. -/
theorem C1_single_flight_at_arrival_steps_witness :
    (relayStep ⟨some ⟨true, 0, 0⟩, [], [TaskPhase.generating],
        false, false, true, false, false⟩
      (RelayEv.promptArrive "hi" 0)).tasks = [TaskPhase.generating] ∧
    genCount (relayStep ⟨some ⟨true, 0, 0⟩, [], [TaskPhase.generating],
        false, false, true, false, false⟩
      (RelayEv.promptArrive "hi" 0)) =
      genCount ⟨some ⟨true, 0, 0⟩, [], [TaskPhase.generating],
        false, false, true, false, false⟩ ∧
    (relayStep ⟨some ⟨true, 0, 0⟩, [], [TaskPhase.generating],
        false, false, true, false, false⟩
      (RelayEv.interruptArrive 0)).tasks = [TaskPhase.generating] :=
  C1_single_flight_at_arrival_steps
    ⟨some ⟨true, 0, 0⟩, [], [TaskPhase.generating],
      false, false, true, false, false⟩ "hi" 0 (by decide)

end RocketApp
